import Mathlib

/-!
Verification of the CMA-ES acquisition-function optimization tutorial
(`tutorials/optimize_with_cmaes.ipynb`).

The notebook is procedural glue: it converts an initial tensor `X_init` to a
numpy array, constructs a `cma.CMAEvolutionStrategy` optimizer, drives its
ask/tell loop under `torch.no_grad()` — asking for a candidate population,
batch-evaluating the negated acquisition function, telling the scores back —
and finally converts the optimizer's best point back to a tensor on `X_init`'s
device and dtype.

The embedding below models numeric values exactly (rationals in place of
floating-point values; dtype conversion is value-preserving in this model),
tensors as data plus a device and a dtype, and the two external libraries
(`cma` and the acquisition function) as abstract parameters: the optimizer as
a state machine with `init` / `stop` / `ask` / `tell` / `bestX`, the
acquisition function as an arbitrary function on batch tensors.  The loop is
given a fuel parameter; termination claims are phrased as fuel-independence
once the stopping predicate fires.  The run is instrumented with an event
trace (ask / eval / tell) so that protocol-shaped claims can be stated.
-/

namespace CMAESTutorial

/-- A candidate vector: a d-dimensional numeric vector (exact model). -/
abbrev Vec := List ℚ

/-- A population of candidate vectors: a batch of d-dimensional vectors. -/
abbrev Batch := List Vec

/-- Torch device of a tensor. -/
inductive Device
  | cpu
  | cuda (idx : ℕ)
deriving DecidableEq, Repr

/-- Torch floating dtype of a tensor (values themselves are modelled exactly). -/
inductive DType
  | float32
  | float64
deriving DecidableEq, Repr

/-- A 1-dimensional torch tensor: data plus device and dtype. -/
structure Tensor1 where
  data : Vec
  device : Device
  dtype : DType
deriving DecidableEq, Repr

/-- A 2-dimensional torch tensor (a batch of rows). -/
structure Tensor2 where
  data : Batch
  device : Device
  dtype : DType
deriving DecidableEq, Repr

/-- Model of `t.cpu()`: move to the cpu device. -/
def Tensor1.cpu (t : Tensor1) : Tensor1 :=
  Tensor1.mk t.data Device.cpu t.dtype

/-- Model of `t.double()`: convert dtype to float64 (value-preserving here). -/
def Tensor1.double (t : Tensor1) : Tensor1 :=
  Tensor1.mk t.data t.device DType.float64

/-- Model of `t.numpy()`: extract the underlying numeric array. -/
def Tensor1.numpy (t : Tensor1) : Vec :=
  t.data

/-- Model of `t.to(device=..., dtype=...)` for 1-d tensors. -/
def Tensor1.to (t : Tensor1) (dev : Device) (dt : DType) : Tensor1 :=
  Tensor1.mk t.data dev dt

/-- Model of `torch.from_numpy` on a 1-d float64 numpy array: a cpu float64 tensor. -/
def fromNumpy1 (v : Vec) : Tensor1 :=
  Tensor1.mk v Device.cpu DType.float64

/-- Model of `torch.from_numpy` on a 2-d float64 numpy array: a cpu float64 tensor. -/
def fromNumpy2 (b : Batch) : Tensor2 :=
  Tensor2.mk b Device.cpu DType.float64

/-- Model of `t.to(device=..., dtype=...)` for 2-d tensors. -/
def Tensor2.to (t : Tensor2) (dev : Device) (dt : DType) : Tensor2 :=
  Tensor2.mk t.data dev dt

/-- Model of unary minus on a tensor (`Y = - acq_func(X)`): elementwise negation. -/
def negT2 (t : Tensor2) : Tensor2 :=
  Tensor2.mk (t.data.map (fun row => row.map (fun q => -q))) t.device t.dtype

/-- Model of `Y.view(-1)`: flatten a 2-d tensor into a 1-d tensor. -/
def Tensor2.view1 (t : Tensor2) : Tensor1 :=
  Tensor1.mk t.data.flatten t.device t.dtype

/-- Model of `.double()` on a 2-d tensor. -/
def Tensor2.double (t : Tensor2) : Tensor2 :=
  Tensor2.mk t.data t.device DType.float64

/-- The `inopts` dictionary passed to `cma.CMAEvolutionStrategy`:
box bounds and population size. -/
structure CMAOptions where
  boundsLo : ℚ
  boundsHi : ℚ
  popsize : ℕ
deriving DecidableEq, Repr

/-- The constructor arguments of `cma.CMAEvolutionStrategy`:
initial point `x0`, initial standard deviation `sigma0`, and options. -/
structure CMAInit where
  x0 : Vec
  sigma0 : ℚ
  inopts : CMAOptions
deriving DecidableEq, Repr

/-- The external CMA-ES optimizer, abstracted as a state machine over states `σ`:
`init` builds the initial state from the constructor arguments, `stop` is the
internal termination predicate (`es.stop()`), `ask` returns a candidate
population and the updated state (`es.ask()`), `tell` reports scores back
(`es.tell(xs, y)`), and `bestX` reads the best point found (`es.best.x`). -/
structure Optimizer (σ : Type) where
  init : CMAInit → σ
  stop : σ → Bool
  ask : σ → Batch × σ
  tell : σ → Batch → Vec → σ
  bestX : σ → Vec

/-- The constructor-argument record the notebook builds:
`x0 = X_init.cpu().double().numpy()`, `sigma0 = 0.25`,
`inopts = dict(bounds=[0, 1], popsize=100)`. -/
def cmaesInit (Xinit : Tensor1) : CMAInit :=
  CMAInit.mk ((Xinit.cpu).double).numpy (1/4) (CMAOptions.mk 0 1 100)

/-- An observable event of the optimization loop: a call to `es.ask`, one
batched evaluation of the acquisition function, or a call to `es.tell`. -/
inductive Event
  | ask (xs : Batch)
  | eval (X : Tensor2) (Y : Tensor2)
  | tell (xs : Batch) (y : Vec)
deriving DecidableEq, Repr

/-- One iteration of the loop body, straight from the notebook:
`xs = es.ask()`; `X = torch.from_numpy(xs).to(device=X_init.device,
dtype=X_init.dtype)`; `Y = - acq_func(X)`; `y = Y.view(-1).double().numpy()`;
`es.tell(xs, y)`.  Returns the updated optimizer state and the events issued. -/
def cmaesStep {σ : Type} (opt : Optimizer σ) (acq : Tensor2 → Tensor2)
    (Xinit : Tensor1) (s : σ) : σ × List Event :=
  let xs := (opt.ask s).1
  let s1 := (opt.ask s).2
  let X := (fromNumpy2 xs).to Xinit.device Xinit.dtype
  let Y := negT2 (acq X)
  let y := ((Y.view1).double).numpy
  (opt.tell s1 xs y, [Event.ask xs, Event.eval X Y, Event.tell xs y])

/-- The state after one loop iteration. -/
def stepState {σ : Type} (opt : Optimizer σ) (acq : Tensor2 → Tensor2)
    (Xinit : Tensor1) (s : σ) : σ :=
  (cmaesStep opt acq Xinit s).1

/-- The `while not es.stop():` loop, with a fuel parameter standing for an
upper bound on the number of iterations.  Returns the final optimizer state
and the concatenated event trace. -/
def cmaesLoop {σ : Type} (opt : Optimizer σ) (acq : Tensor2 → Tensor2)
    (Xinit : Tensor1) : ℕ → σ → σ × List Event
  | 0, s => (s, [])
  | fuel+1, s =>
    if opt.stop s then (s, [])
    else
      let p := cmaesStep opt acq Xinit s
      let q := cmaesLoop opt acq Xinit fuel p.1
      (q.1, p.2 ++ q.2)

/-- Number of iterations the loop performs with the given fuel: it steps while
the stopping predicate is false and fuel remains. -/
def itersUntilStop {σ : Type} (opt : Optimizer σ) (acq : Tensor2 → Tensor2)
    (Xinit : Tensor1) : ℕ → σ → ℕ
  | 0, _ => 0
  | fuel+1, s =>
    if opt.stop s then 0
    else itersUntilStop opt acq Xinit fuel (stepState opt acq Xinit s) + 1

/-- The whole notebook procedure: build `x0` and the optimizer, run the
ask/tell loop, and convert `es.best.x` back to a tensor on `X_init`'s device
with `X_init`'s dtype.  Returns `best_x` and the event trace. -/
def optimizeWithCMAES {σ : Type} (opt : Optimizer σ) (acq : Tensor2 → Tensor2)
    (Xinit : Tensor1) (fuel : ℕ) : Tensor1 × List Event :=
  let s0 := opt.init (cmaesInit Xinit)
  let r := cmaesLoop opt acq Xinit fuel s0
  let bx := fromNumpy1 (opt.bestX r.1)
  (bx.to Xinit.device Xinit.dtype, r.2)

/-- Whether an event is an acquisition-function evaluation. -/
def isEvalEv : Event → Bool
  | Event.eval _ _ => true
  | _ => false

/-- Whether an event is a `tell` call. -/
def isTellEv : Event → Bool
  | Event.tell _ _ => true
  | _ => false

/-- Whether an event is an `ask` call. -/
def isAskEv : Event → Bool
  | Event.ask _ => true
  | _ => false

/-- The subsequence of optimizer calls (`ask` and `tell`) of a trace. -/
def callEvents (tr : List Event) : List Event :=
  tr.filter (fun e => !isEvalEv e)

/-- Checks the strict ask/tell protocol on a call trace: `ask` and `tell`
alternate starting with `ask`, and every `tell` passes back exactly the batch
the preceding `ask` returned. -/
def alternates : List Event → Bool
  | [] => true
  | Event.ask xs :: Event.tell xs2 _ :: rest => decide (xs2 = xs) && alternates rest
  | _ => false

/-- Checks, over a full trace, that every iteration is an
`ask` / `eval` / `tell` triple in which the evaluated tensor holds exactly the
asked batch and has the given device and dtype. -/
def evalInputsMatch (dev : Device) (dt : DType) : List Event → Bool
  | [] => true
  | Event.ask xs :: Event.eval X _ :: Event.tell _ _ :: rest =>
    decide (X.data = xs) && decide (X.device = dev) && decide (X.dtype = dt) &&
      evalInputsMatch dev dt rest
  | _ => false

/-- The score array one loop iteration reports to `tell` for an asked batch
`xs`, read off the notebook's evaluation pipeline:
`(- acq_func(torch.from_numpy(xs).to(device=X_init.device,
dtype=X_init.dtype))).view(-1).double().numpy()`. -/
def batchScores (acq : Tensor2 → Tensor2) (Xinit : Tensor1) (xs : Batch) : Vec :=
  (((negT2 (acq ((fromNumpy2 xs).to Xinit.device Xinit.dtype))).view1).double).numpy

/-- Modelled from the spec: sequential per-candidate evaluation — score each
candidate of the population individually with a scalar acquisition value `f`
and collect the negated results.  This is the reference semantics against
which the batched call is compared. -/
def perCandidateScores (f : Vec → ℚ) (xs : Batch) : Vec :=
  xs.map (fun v => -(f v))

/-- The external optimizer with fallible operations: every call may raise an
exception of type `ε` instead of returning.  Mirrors `Optimizer`. -/
structure OptimizerE (σ ε : Type) where
  init : CMAInit → σ
  stop : σ → Except ε Bool
  ask : σ → Except ε (Batch × σ)
  tell : σ → Batch → Vec → Except ε σ
  bestX : σ → Except ε Vec

/-- The ask/tell loop with fallible external calls.  The notebook body has no
`try`/`except`, so each external call is just sequenced: a raised exception
aborts the loop and propagates. -/
def cmaesLoopE {σ ε : Type} (opt : OptimizerE σ ε) (acq : Tensor2 → Except ε Tensor2)
    (Xinit : Tensor1) : ℕ → σ → Except ε σ
  | 0, s => Except.ok s
  | fuel+1, s =>
    match opt.stop s with
    | Except.error e => Except.error e
    | Except.ok true => Except.ok s
    | Except.ok false =>
      match opt.ask s with
      | Except.error e => Except.error e
      | Except.ok xss1 =>
        match acq ((fromNumpy2 xss1.1).to Xinit.device Xinit.dtype) with
        | Except.error e => Except.error e
        | Except.ok A =>
          match opt.tell xss1.2 xss1.1 ((((negT2 A).view1).double).numpy) with
          | Except.error e => Except.error e
          | Except.ok s2 => cmaesLoopE opt acq Xinit fuel s2

/-- The whole procedure with fallible external calls: errors of the loop and
of the final `es.best.x` read propagate unchanged to the caller. -/
def optimizeWithCMAESE {σ ε : Type} (opt : OptimizerE σ ε)
    (acq : Tensor2 → Except ε Tensor2) (Xinit : Tensor1) (fuel : ℕ) :
    Except ε Tensor1 :=
  match cmaesLoopE opt acq Xinit fuel (opt.init (cmaesInit Xinit)) with
  | Except.error e => Except.error e
  | Except.ok sf =>
    match opt.bestX sf with
    | Except.error e => Except.error e
    | Except.ok bx => Except.ok ((fromNumpy1 bx).to Xinit.device Xinit.dtype)

/-- A numeric array object living in the heap of the allocation-instrumented
embedding: 1-d or 2-d storage. -/
inductive PyVal
  | arr1 (v : Vec)
  | arr2 (m : Batch)
deriving DecidableEq, Repr

/-- The heap of allocated array/tensor storages; a reference is an index. -/
abbrev Heap := List PyVal

/-- Read a 2-d storage from the heap. -/
def read2 (h : Heap) (r : ℕ) : Batch :=
  match h[r]? with
  | some (PyVal.arr2 m) => m
  | _ => []

/-- Read a 1-d storage from the heap. -/
def read1 (h : Heap) (r : ℕ) : Vec :=
  match h[r]? with
  | some (PyVal.arr1 v) => v
  | _ => []

/-- A tensor as a reference into the heap, plus device and dtype. -/
structure TensorR where
  ref : ℕ
  device : Device
  dtype : DType
deriving DecidableEq, Repr

/-- One loop iteration in the allocation-instrumented embedding: the array
returned by `ask`, the converted tensor `X`, the result `Y`, and the score
array `y` are each a fresh allocation; no existing heap cell is written.
Returns the new heap, the optimizer state, and the references created. -/
def cmaesStepH {σ : Type} (opt : Optimizer σ) (acq : Tensor2 → Tensor2)
    (XinitR : TensorR) (h : Heap) (s : σ) : Heap × σ × List ℕ :=
  let xs := (opt.ask s).1
  let s1 := (opt.ask s).2
  let h1 := h ++ [PyVal.arr2 xs]
  let rxs := h.length
  let h2 := h1 ++ [PyVal.arr2 (read2 h1 rxs)]
  let rX := h1.length
  let X := Tensor2.mk (read2 h2 rX) XinitR.device XinitR.dtype
  let Y := negT2 (acq X)
  let h3 := h2 ++ [PyVal.arr2 Y.data]
  let rY := h2.length
  let h4 := h3 ++ [PyVal.arr1 (((Y.view1).double).numpy)]
  let ry := h3.length
  (h4, opt.tell s1 (read2 h4 rxs) (read1 h4 ry), [rxs, rX, rY, ry])

/-- The ask/tell loop in the allocation-instrumented embedding.  Returns the
final heap, the final optimizer state, and the references created in each
iteration (one list per iteration). -/
def cmaesLoopH {σ : Type} (opt : Optimizer σ) (acq : Tensor2 → Tensor2)
    (XinitR : TensorR) : ℕ → Heap → σ → Heap × σ × List (List ℕ)
  | 0, h, s => (h, s, [])
  | fuel+1, h, s =>
    if opt.stop s then (h, s, [])
    else
      let p := cmaesStepH opt acq XinitR h s
      let q := cmaesLoopH opt acq XinitR fuel p.1 p.2.1
      (q.1, q.2.1, p.2.2 :: q.2.2)

/-- A concrete initial tensor used to exercise the theorems. -/
def demoXinit : Tensor1 :=
  Tensor1.mk [0, 0] Device.cpu DType.float64

/-- A concrete scalar acquisition value used to exercise the theorems:
a candidate's first coordinate. -/
def demoScore (v : Vec) : ℚ :=
  v.headD 0

/-- A concrete acquisition function used to exercise the theorems: it scores
each candidate row by the sum of its coordinates, acting pointwise across the
batch dimension. -/
def demoAcq (X : Tensor2) : Tensor2 :=
  Tensor2.mk (X.data.map (fun v => [demoScore v])) X.device X.dtype

/-- A concrete optimizer used to exercise the theorems: the state counts the
iterations performed, it stops after two `tell`s, and each `ask` proposes a
single candidate. -/
def demoOpt : Optimizer ℕ where
  init _ := 0
  stop s := decide (2 ≤ s)
  ask s := ([[0, 0]], s)
  tell s _ _ := s + 1
  bestX _ := [0, 0]

/-- A concrete optimizer whose `ask` proposes a population of exactly 100
candidates, matching the configured population size, and which stops after a
single `tell`. -/
def demoOpt100 : Optimizer ℕ where
  init _ := 0
  stop s := decide (1 ≤ s)
  ask s := (List.replicate 100 [0, 0], s)
  tell s _ _ := s + 1
  bestX _ := [0, 0]

/-- A concrete initial-tensor reference for the heap-instrumented embedding:
the cell at index 0 of the initial heap. -/
def demoXinitR : TensorR :=
  TensorR.mk 0 Device.cpu DType.float64

/-- A fallible optimizer whose stopping predicate raises exception `7`. -/
def failStopOpt : OptimizerE ℕ ℕ where
  init _ := 0
  stop _ := Except.error 7
  ask s := Except.ok ([[0, 0]], s)
  tell s _ _ := Except.ok (s + 1)
  bestX _ := Except.ok [0, 0]

/-- A fallible acquisition function that never raises. -/
def demoAcqE (X : Tensor2) : Except ℕ Tensor2 :=
  Except.ok (demoAcq X)

/-- Flattening a list of singletons recovers the map. -/
theorem flatten_map_singleton {α β : Type} (g : α → β) (l : List α) :
    (l.map (fun v => [g v])).flatten = l.map g := by
  induction l with
  | nil => rfl
  | cons a t ih => simp [ih]

/-- Unfold a flatMap over `List.range (n+1)` from the front. -/
theorem range_succ_flatMap {β : Type} (n : ℕ) (f : ℕ → List β) :
    (List.range (n+1)).flatMap f = f 0 ++ (List.range n).flatMap (fun i => f (i+1)) := by
  rw [List.range_succ_eq_map]
  simp [List.flatMap, Function.comp]
  rfl

/-- The events of one loop iteration, in order: the `ask`, the single batched
evaluation, and the `tell` reporting the pipeline's scores. -/
theorem cmaesStep_events {σ : Type} (opt : Optimizer σ) (acq : Tensor2 → Tensor2)
    (Xinit : Tensor1) (s : σ) :
    (cmaesStep opt acq Xinit s).2 =
      [Event.ask (opt.ask s).1,
       Event.eval ((fromNumpy2 (opt.ask s).1).to Xinit.device Xinit.dtype)
         (negT2 (acq ((fromNumpy2 (opt.ask s).1).to Xinit.device Xinit.dtype))),
       Event.tell (opt.ask s).1 (batchScores acq Xinit (opt.ask s).1)] := rfl

/-- The scores a loop iteration reports are the elementwise negation of the
flattened output of one batched acquisition call on the asked population. -/
theorem batchScores_eq_neg_flatten (acq : Tensor2 → Tensor2) (Xinit : Tensor1)
    (xs : Batch) :
    batchScores acq Xinit xs =
      ((acq ((fromNumpy2 xs).to Xinit.device Xinit.dtype)).data.flatten).map
        (fun q => -q) := by
  simp [batchScores, negT2, Tensor2.view1, Tensor1.double, Tensor1.numpy,
    List.map_flatten]

/-- Every event of the loop trace is issued by the body at a state where the
stopping predicate is false. -/
theorem mem_cmaesLoop_trace {σ : Type} (opt : Optimizer σ) (acq : Tensor2 → Tensor2)
    (Xinit : Tensor1) :
    ∀ (fuel : ℕ) (s : σ) (e : Event), e ∈ (cmaesLoop opt acq Xinit fuel s).2 →
      ∃ s2, opt.stop s2 = false ∧ e ∈ (cmaesStep opt acq Xinit s2).2 := by
  intro fuel
  induction fuel with
  | zero => intro s e he; simp [cmaesLoop] at he
  | succ fuel ih =>
    intro s e he
    cases hs : opt.stop s with
    | true => rw [cmaesLoop, if_pos hs] at he; simp at he
    | false =>
      rw [cmaesLoop, if_neg (by simp [hs])] at he
      rcases List.mem_append.mp he with h1 | h2
      · exact ⟨s, hs, h1⟩
      · exact ih _ e h2

/-- A `tell` event of an iteration carries the asked batch and the batched
pipeline scores. -/
theorem tell_mem_step {σ : Type} (opt : Optimizer σ) (acq : Tensor2 → Tensor2)
    (Xinit : Tensor1) (s : σ) (xs : Batch) (y : Vec)
    (h : Event.tell xs y ∈ (cmaesStep opt acq Xinit s).2) :
    xs = (opt.ask s).1 ∧ y = batchScores acq Xinit xs := by
  rw [cmaesStep_events] at h
  simp at h
  obtain ⟨h1, h2⟩ := h
  subst h1
  exact ⟨rfl, h2⟩

/-- An `ask` event of an iteration carries exactly the batch the optimizer
returned. -/
theorem ask_mem_step {σ : Type} (opt : Optimizer σ) (acq : Tensor2 → Tensor2)
    (Xinit : Tensor1) (s : σ) (xs : Batch)
    (h : Event.ask xs ∈ (cmaesStep opt acq Xinit s).2) :
    xs = (opt.ask s).1 := by
  rw [cmaesStep_events] at h
  simp at h
  exact h

/-- Each loop trace has as many batched evaluations as `tell` calls. -/
theorem countP_eval_eq_tell {σ : Type} (opt : Optimizer σ) (acq : Tensor2 → Tensor2)
    (Xinit : Tensor1) :
    ∀ (fuel : ℕ) (s : σ),
      List.countP isEvalEv (cmaesLoop opt acq Xinit fuel s).2 =
        List.countP isTellEv (cmaesLoop opt acq Xinit fuel s).2 := by
  intro fuel
  induction fuel with
  | zero => intro s; rfl
  | succ fuel ih =>
    intro s
    cases hs : opt.stop s with
    | true => rw [cmaesLoop, if_pos hs]; rfl
    | false =>
      rw [cmaesLoop, if_neg (by simp [hs])]
      simp only [List.countP_append, cmaesStep_events]
      rw [ih]
      simp [isEvalEv, isTellEv, List.countP_cons]

/-- The final state of the loop is the body iterated as many times as the
loop runs. -/
theorem cmaesLoop_fst {σ : Type} (opt : Optimizer σ) (acq : Tensor2 → Tensor2)
    (Xinit : Tensor1) :
    ∀ (fuel : ℕ) (s : σ),
      (cmaesLoop opt acq Xinit fuel s).1 =
        (stepState opt acq Xinit)^[itersUntilStop opt acq Xinit fuel s] s := by
  intro fuel
  induction fuel with
  | zero => intro s; rfl
  | succ fuel ih =>
    intro s
    cases hs : opt.stop s with
    | true => rw [cmaesLoop, if_pos hs, itersUntilStop, if_pos hs]; rfl
    | false =>
      rw [cmaesLoop, if_neg (by simp [hs]), itersUntilStop, if_neg (by simp [hs])]
      rw [Function.iterate_succ_apply]
      exact ih (stepState opt acq Xinit s)

/-- The loop trace is the concatenation, over the iterations performed, of the
body's events at the successive states. -/
theorem cmaesLoop_snd {σ : Type} (opt : Optimizer σ) (acq : Tensor2 → Tensor2)
    (Xinit : Tensor1) :
    ∀ (fuel : ℕ) (s : σ),
      (cmaesLoop opt acq Xinit fuel s).2 =
        (List.range (itersUntilStop opt acq Xinit fuel s)).flatMap
          (fun i => (cmaesStep opt acq Xinit ((stepState opt acq Xinit)^[i] s)).2) := by
  intro fuel
  induction fuel with
  | zero => intro s; rfl
  | succ fuel ih =>
    intro s
    cases hs : opt.stop s with
    | true => rw [cmaesLoop, if_pos hs, itersUntilStop, if_pos hs]; rfl
    | false =>
      rw [cmaesLoop, if_neg (by simp [hs]), itersUntilStop, if_neg (by simp [hs])]
      rw [range_succ_flatMap]
      simp only [Function.iterate_succ_apply, Function.iterate_zero_apply]
      congr 1
      exact ih (stepState opt acq Xinit s)

/-- With enough fuel, the loop runs exactly up to the first state at which the
stopping predicate fires. -/
theorem itersUntilStop_eq {σ : Type} (opt : Optimizer σ) (acq : Tensor2 → Tensor2)
    (Xinit : Tensor1) :
    ∀ (fuel k : ℕ) (s : σ), k ≤ fuel →
      opt.stop ((stepState opt acq Xinit)^[k] s) = true →
      (∀ i, i < k → opt.stop ((stepState opt acq Xinit)^[i] s) = false) →
      itersUntilStop opt acq Xinit fuel s = k := by
  intro fuel
  induction fuel with
  | zero =>
    intro k s hk _ _
    have hk0 : k = 0 := Nat.le_zero.mp hk
    subst hk0
    rfl
  | succ fuel ih =>
    intro k s hk hstop hmin
    cases hs : opt.stop s with
    | true =>
      rcases Nat.eq_zero_or_pos k with hk0 | hpos
      · subst hk0; rw [itersUntilStop, if_pos hs]
      · exfalso
        have := hmin 0 hpos
        rw [Function.iterate_zero_apply] at this
        rw [hs] at this
        exact Bool.true_eq_false.mp this
    | false =>
      cases k with
      | zero =>
        exfalso
        rw [Function.iterate_zero_apply] at hstop
        rw [hs] at hstop
        exact Bool.false_eq_true.mp hstop
      | succ k =>
        rw [itersUntilStop, if_neg (by simp [hs])]
        congr 1
        apply ih k (stepState opt acq Xinit s) (Nat.le_of_succ_le_succ hk)
        · rw [← Function.iterate_succ_apply]
          exact hstop
        · intro i hi
          rw [← Function.iterate_succ_apply]
          exact hmin (i+1) (Nat.succ_lt_succ hi)

/-- Each iteration contributes exactly three events to the trace. -/
theorem cmaesLoop_trace_length {σ : Type} (opt : Optimizer σ) (acq : Tensor2 → Tensor2)
    (Xinit : Tensor1) :
    ∀ (fuel : ℕ) (s : σ),
      ((cmaesLoop opt acq Xinit fuel s).2).length =
        3 * itersUntilStop opt acq Xinit fuel s := by
  intro fuel
  induction fuel with
  | zero => intro s; rfl
  | succ fuel ih =>
    intro s
    cases hs : opt.stop s with
    | true => rw [cmaesLoop, if_pos hs, itersUntilStop, if_pos hs]; rfl
    | false =>
      rw [cmaesLoop, if_neg (by simp [hs]), itersUntilStop, if_neg (by simp [hs])]
      simp only [List.length_append, cmaesStep_events, List.length_cons, List.length_nil]
      have h2 := ih (cmaesStep opt acq Xinit s).1
      rw [h2]
      have h3 : itersUntilStop opt acq Xinit fuel (stepState opt acq Xinit s) =
          itersUntilStop opt acq Xinit fuel (cmaesStep opt acq Xinit s).1 := rfl
      rw [h3]
      ring

/-- The call subsequence of every loop trace alternates ask/tell, with each
`tell` reporting on exactly the batch the preceding `ask` returned. -/
theorem alternates_cmaesLoop {σ : Type} (opt : Optimizer σ) (acq : Tensor2 → Tensor2)
    (Xinit : Tensor1) :
    ∀ (fuel : ℕ) (s : σ),
      alternates (callEvents (cmaesLoop opt acq Xinit fuel s).2) = true := by
  intro fuel
  induction fuel with
  | zero => intro s; rfl
  | succ fuel ih =>
    intro s
    cases hs : opt.stop s with
    | true => rw [cmaesLoop, if_pos hs]; rfl
    | false =>
      rw [cmaesLoop, if_neg (by simp [hs])]
      show alternates (callEvents ((cmaesStep opt acq Xinit s).2 ++
        (cmaesLoop opt acq Xinit fuel (cmaesStep opt acq Xinit s).1).2)) = true
      rw [callEvents, List.filter_append, cmaesStep_events]
      simp only [List.filter, isEvalEv, Bool.not_true, Bool.not_false]
      rw [List.cons_append, List.cons_append, alternates]
      have hd : decide ((opt.ask s).1 = (opt.ask s).1) = true := by simp
      rw [hd, Bool.true_and]
      exact ih (cmaesStep opt acq Xinit s).1

/-- In every loop trace, each iteration is an ask/eval/tell triple whose
evaluated tensor holds the asked batch on the initial tensor's device and
dtype. -/
theorem evalInputsMatch_cmaesLoop {σ : Type} (opt : Optimizer σ)
    (acq : Tensor2 → Tensor2) (Xinit : Tensor1) :
    ∀ (fuel : ℕ) (s : σ),
      evalInputsMatch Xinit.device Xinit.dtype (cmaesLoop opt acq Xinit fuel s).2 =
        true := by
  intro fuel
  induction fuel with
  | zero => intro s; rfl
  | succ fuel ih =>
    intro s
    cases hs : opt.stop s with
    | true => rw [cmaesLoop, if_pos hs]; rfl
    | false =>
      rw [cmaesLoop, if_neg (by simp [hs])]
      show evalInputsMatch Xinit.device Xinit.dtype ((cmaesStep opt acq Xinit s).2 ++
        (cmaesLoop opt acq Xinit fuel (cmaesStep opt acq Xinit s).1).2) = true
      rw [cmaesStep_events]
      rw [List.cons_append, List.cons_append, List.cons_append, evalInputsMatch]
      have hd : decide ((((fromNumpy2 (opt.ask s).1).to Xinit.device Xinit.dtype)).data =
          (opt.ask s).1) = true := by simp [fromNumpy2, Tensor2.to]
      have hdev : decide ((((fromNumpy2 (opt.ask s).1).to Xinit.device
          Xinit.dtype)).device = Xinit.device) = true := by simp [fromNumpy2, Tensor2.to]
      have hdt : decide ((((fromNumpy2 (opt.ask s).1).to Xinit.device
          Xinit.dtype)).dtype = Xinit.dtype) = true := by simp [fromNumpy2, Tensor2.to]
      rw [hd, hdev, hdt]
      simp only [Bool.true_and]
      exact ih (cmaesStep opt acq Xinit s).1

/-- One heap iteration only appends to the heap. -/
theorem cmaesStepH_extends {σ : Type} (opt : Optimizer σ) (acq : Tensor2 → Tensor2)
    (XinitR : TensorR) (h : Heap) (s : σ) :
    ∃ t, (cmaesStepH opt acq XinitR h s).1 = h ++ t :=
  ⟨_, by simp [cmaesStepH, List.append_assoc]; rfl⟩

/-- One heap iteration allocates exactly four cells. -/
theorem cmaesStepH_length {σ : Type} (opt : Optimizer σ) (acq : Tensor2 → Tensor2)
    (XinitR : TensorR) (h : Heap) (s : σ) :
    ((cmaesStepH opt acq XinitR h s).1).length = h.length + 4 := by
  simp [cmaesStepH]

/-- The references an iteration creates are the four next free indices. -/
theorem cmaesStepH_refs {σ : Type} (opt : Optimizer σ) (acq : Tensor2 → Tensor2)
    (XinitR : TensorR) (h : Heap) (s : σ) :
    (cmaesStepH opt acq XinitR h s).2.2 =
      [h.length, h.length+1, h.length+2, h.length+3] := by
  simp [cmaesStepH]

/-- The heap run only appends to the initial heap; every reference created is
fresh with respect to the initial heap and stays within the final heap; and
references created in different iterations are pairwise distinct. -/
theorem cmaesLoopH_spec {σ : Type} (opt : Optimizer σ) (acq : Tensor2 → Tensor2)
    (XinitR : TensorR) :
    ∀ (fuel : ℕ) (h : Heap) (s : σ),
      (∃ t, (cmaesLoopH opt acq XinitR fuel h s).1 = h ++ t) ∧
      (∀ rs ∈ (cmaesLoopH opt acq XinitR fuel h s).2.2, ∀ r ∈ rs,
        h.length ≤ r ∧ r < ((cmaesLoopH opt acq XinitR fuel h s).1).length) ∧
      List.Pairwise (fun a b => ∀ x ∈ a, ∀ x2 ∈ b, x ≠ x2)
        (cmaesLoopH opt acq XinitR fuel h s).2.2 := by
  intro fuel
  induction fuel with
  | zero =>
    intro h s
    refine ⟨⟨[], by simp [cmaesLoopH]⟩, ?_, ?_⟩ <;> simp [cmaesLoopH]
  | succ fuel ih =>
    intro h s
    cases hs : opt.stop s with
    | true =>
      rw [cmaesLoopH, if_pos hs]
      refine ⟨⟨[], by simp⟩, ?_, ?_⟩ <;> simp
    | false =>
      rw [cmaesLoopH, if_neg (by simp [hs])]
      obtain ⟨⟨t, ht⟩, hb, hp⟩ :=
        ih (cmaesStepH opt acq XinitR h s).1 (cmaesStepH opt acq XinitR h s).2.1
      obtain ⟨t2, ht2⟩ := cmaesStepH_extends opt acq XinitR h s
      have hlen4 := cmaesStepH_length opt acq XinitR h s
      have hrefs := cmaesStepH_refs opt acq XinitR h s
      have hq1 : (cmaesLoopH opt acq XinitR fuel (cmaesStepH opt acq XinitR h s).1
          (cmaesStepH opt acq XinitR h s).2.1).1.length =
          (cmaesStepH opt acq XinitR h s).1.length + t.length := by
        rw [ht, List.length_append]
      refine ⟨⟨t2 ++ t, ?_⟩, ?_, ?_⟩
      · show (cmaesLoopH opt acq XinitR fuel (cmaesStepH opt acq XinitR h s).1
          (cmaesStepH opt acq XinitR h s).2.1).1 = h ++ (t2 ++ t)
        rw [ht, ht2, List.append_assoc]
      · show ∀ rs ∈ (cmaesStepH opt acq XinitR h s).2.2 ::
          (cmaesLoopH opt acq XinitR fuel (cmaesStepH opt acq XinitR h s).1
            (cmaesStepH opt acq XinitR h s).2.1).2.2, ∀ r ∈ rs,
          h.length ≤ r ∧ r < (cmaesLoopH opt acq XinitR fuel
            (cmaesStepH opt acq XinitR h s).1
            (cmaesStepH opt acq XinitR h s).2.1).1.length
        intro rs hrs r hr
        rcases List.mem_cons.mp hrs with hrs0 | hrs1
        · subst hrs0
          rw [hrefs] at hr
          simp at hr
          rw [hq1, hlen4]
          omega
        · have := hb rs hrs1 r hr
          rw [hlen4] at this
          omega
      · show List.Pairwise (fun a b => ∀ x ∈ a, ∀ x2 ∈ b, x ≠ x2)
          ((cmaesStepH opt acq XinitR h s).2.2 ::
            (cmaesLoopH opt acq XinitR fuel (cmaesStepH opt acq XinitR h s).1
              (cmaesStepH opt acq XinitR h s).2.1).2.2)
        rw [List.pairwise_cons]
        refine ⟨?_, hp⟩
        intro rs hrs x hx x2 hx2
        have hx2b := (hb rs hrs x2 hx2).1
        rw [hlen4] at hx2b
        rw [hrefs] at hx
        simp at hx
        omega

/-- C1: in every iteration of the optimization loop, the score vector
reported to the optimizer via `tell` equals the elementwise negation of the
acquisition function applied to the entire asked candidate population in one
single batched call; the trace contains exactly one batched evaluation per
`tell` (no per-candidate calls). -/
theorem c1_tell_is_batched_negation {σ : Type} (opt : Optimizer σ)
    (acq : Tensor2 → Tensor2) (Xinit : Tensor1) (fuel : ℕ) :
    (∀ xs y, Event.tell xs y ∈ (optimizeWithCMAES opt acq Xinit fuel).2 →
      y = ((acq ((fromNumpy2 xs).to Xinit.device Xinit.dtype)).data.flatten).map
        (fun q => -q)) ∧
    List.countP isEvalEv (optimizeWithCMAES opt acq Xinit fuel).2 =
      List.countP isTellEv (optimizeWithCMAES opt acq Xinit fuel).2 := by
  constructor
  · intro xs y hmem
    obtain ⟨s2, _, hstep⟩ := mem_cmaesLoop_trace opt acq Xinit fuel _ _ hmem
    obtain ⟨_, hy⟩ := tell_mem_step opt acq Xinit s2 xs y hstep
    rw [hy, batchScores_eq_neg_flatten]
  · exact countP_eval_eq_tell opt acq Xinit fuel _

/-- Witness for C1: a concrete run in which the reported score vector is the
negated batched acquisition output. -/
theorem c1_witness :
    [(0:ℚ)] = ((demoAcq ((fromNumpy2 [[0, 0]]).to demoXinit.device
      demoXinit.dtype)).data.flatten).map (fun q => -q) :=
  (c1_tell_is_batched_negation demoOpt demoAcq demoXinit 1).1 [[0, 0]] [0] (by decide)

/-- C2: the loop performs an ask/tell iteration exactly when the stopping
predicate is false and terminates as soon as it holds: if the predicate first
becomes true after `k` body iterations, the run is independent of any fuel
bound of at least `k` (the computation is total), the trace is exactly one
ask/eval/tell triple per pre-stop iteration, the final state satisfies the
stopping predicate, and no ask or tell is issued after it holds. -/
theorem c2_terminates_at_stop {σ : Type} (opt : Optimizer σ)
    (acq : Tensor2 → Tensor2) (Xinit : Tensor1) (k : ℕ)
    (hstop : opt.stop ((stepState opt acq Xinit)^[k]
      (opt.init (cmaesInit Xinit))) = true)
    (hmin : ∀ i, i < k →
      opt.stop ((stepState opt acq Xinit)^[i] (opt.init (cmaesInit Xinit))) = false) :
    (∀ fuel, k ≤ fuel →
      cmaesLoop opt acq Xinit fuel (opt.init (cmaesInit Xinit)) =
        cmaesLoop opt acq Xinit k (opt.init (cmaesInit Xinit))) ∧
    (cmaesLoop opt acq Xinit k (opt.init (cmaesInit Xinit))).2 =
      (List.range k).flatMap (fun i =>
        (cmaesStep opt acq Xinit
          ((stepState opt acq Xinit)^[i] (opt.init (cmaesInit Xinit)))).2) ∧
    opt.stop ((cmaesLoop opt acq Xinit k (opt.init (cmaesInit Xinit))).1) = true ∧
    ((cmaesLoop opt acq Xinit k (opt.init (cmaesInit Xinit))).2).length = 3 * k := by
  have hik : ∀ fuel, k ≤ fuel →
      itersUntilStop opt acq Xinit fuel (opt.init (cmaesInit Xinit)) = k :=
    fun fuel hf => itersUntilStop_eq opt acq Xinit fuel k _ hf hstop hmin
  have hkk := hik k (le_refl k)
  refine ⟨?_, ?_, ?_, ?_⟩
  · intro fuel hf
    have h1 := cmaesLoop_fst opt acq Xinit fuel (opt.init (cmaesInit Xinit))
    have h2 := cmaesLoop_fst opt acq Xinit k (opt.init (cmaesInit Xinit))
    have h3 := cmaesLoop_snd opt acq Xinit fuel (opt.init (cmaesInit Xinit))
    have h4 := cmaesLoop_snd opt acq Xinit k (opt.init (cmaesInit Xinit))
    rw [hik fuel hf] at h1 h3
    rw [hkk] at h2 h4
    exact Prod.ext (by rw [h1, h2]) (by rw [h3, h4])
  · rw [cmaesLoop_snd, hkk]
  · rw [cmaesLoop_fst, hkk]
    exact hstop
  · rw [cmaesLoop_trace_length, hkk]

/-- Witness for C2: the demo optimizer first stops after two iterations, the
final state satisfies the stopping predicate, and the trace has exactly six
events. -/
theorem c2_witness :
    demoOpt.stop ((cmaesLoop demoOpt demoAcq demoXinit 2
      (demoOpt.init (cmaesInit demoXinit))).1) = true ∧
    ((cmaesLoop demoOpt demoAcq demoXinit 2
      (demoOpt.init (cmaesInit demoXinit))).2).length = 3 * 2 :=
  ⟨(c2_terminates_at_stop demoOpt demoAcq demoXinit 2 (by decide) (by decide)).2.2.1,
   (c2_terminates_at_stop demoOpt demoAcq demoXinit 2 (by decide) (by decide)).2.2.2⟩

/-- C3: the loop follows the ask/tell protocol strictly: ask and tell calls
alternate starting with an ask, and every tell passes back exactly the batch
most recently returned by ask, unmodified (the converted tensor copy is used
only for evaluation, never reported back). -/
theorem c3_strict_ask_tell_protocol {σ : Type} (opt : Optimizer σ)
    (acq : Tensor2 → Tensor2) (Xinit : Tensor1) (fuel : ℕ) :
    alternates (callEvents (optimizeWithCMAES opt acq Xinit fuel).2) = true :=
  alternates_cmaesLoop opt acq Xinit fuel _

/-- C4: in every iteration the score array passed to `tell` is one
scalar per candidate of the asked batch, and its length equals the configured
population size of 100, provided the external acquisition function returns
one scalar per candidate and the external optimizer honours the configured
population size. -/
theorem c4_scores_dimension {σ : Type} (opt : Optimizer σ)
    (acq : Tensor2 → Tensor2) (Xinit : Tensor1) (fuel : ℕ)
    (hacq : ∀ X : Tensor2, ((acq X).data.flatten).length = X.data.length)
    (hpop : ∀ s : σ, ((opt.ask s).1).length = (cmaesInit Xinit).inopts.popsize) :
    ∀ xs y, Event.tell xs y ∈ (optimizeWithCMAES opt acq Xinit fuel).2 →
      y.length = xs.length ∧ xs.length = 100 := by
  intro xs y hmem
  obtain ⟨s2, _, hstep⟩ := mem_cmaesLoop_trace opt acq Xinit fuel _ _ hmem
  obtain ⟨hxs, hy⟩ := tell_mem_step opt acq Xinit s2 xs y hstep
  constructor
  · rw [hy, batchScores_eq_neg_flatten, List.length_map, hacq]
    rfl
  · rw [hxs, hpop s2]
    rfl

set_option maxRecDepth 8000 in
/-- Witness for C4: a concrete run with a 100-candidate population in which
the reported score array has one entry per candidate. -/
theorem c4_witness :
    (List.replicate 100 (0:ℚ)).length = (List.replicate 100 [(0:ℚ), 0]).length ∧
    (List.replicate 100 [(0:ℚ), 0]).length = 100 :=
  c4_scores_dimension demoOpt100 demoAcq demoXinit 1
    (fun X => by simp [demoAcq, flatten_map_singleton])
    (fun s => by simp [demoOpt100, cmaesInit])
    (List.replicate 100 [(0:ℚ), 0]) (List.replicate 100 0) (by decide)

/-- C5: the initial point handed to the optimizer is `X_init` converted to a
cpu double-precision array, preserving its values (hence its dimension), and
the final `best_x` is the optimizer's reported best point converted back to a
tensor on `X_init`'s device with `X_init`'s dtype. -/
theorem c5_conversions {σ : Type} (opt : Optimizer σ) (acq : Tensor2 → Tensor2)
    (Xinit : Tensor1) (fuel : ℕ) :
    ((Xinit.cpu).double).device = Device.cpu ∧
    ((Xinit.cpu).double).dtype = DType.float64 ∧
    (cmaesInit Xinit).x0 = Xinit.data ∧
    (optimizeWithCMAES opt acq Xinit fuel).1 =
      Tensor1.mk (opt.bestX ((cmaesLoop opt acq Xinit fuel
        (opt.init (cmaesInit Xinit))).1)) Xinit.device Xinit.dtype :=
  ⟨rfl, rfl, rfl, rfl⟩

/-- C6: the glue performs no error handling: an exception raised by the
optimizer's stop, ask or tell call, or by the acquisition function, aborts
the run and propagates unchanged to the caller, as does an exception of the
final best-point read; no recovery, retry, or partial-failure path exists. -/
theorem c6_exceptions_propagate {σ ε : Type} (opt : OptimizerE σ ε)
    (acq : Tensor2 → Except ε Tensor2) (Xinit : Tensor1) :
    (∀ (fuel : ℕ) (s : σ) (e : ε), opt.stop s = Except.error e →
      cmaesLoopE opt acq Xinit (fuel+1) s = Except.error e) ∧
    (∀ (fuel : ℕ) (s : σ) (e : ε), opt.stop s = Except.ok false →
      opt.ask s = Except.error e →
      cmaesLoopE opt acq Xinit (fuel+1) s = Except.error e) ∧
    (∀ (fuel : ℕ) (s : σ) (e : ε) (xs : Batch) (s1 : σ),
      opt.stop s = Except.ok false → opt.ask s = Except.ok (xs, s1) →
      acq ((fromNumpy2 xs).to Xinit.device Xinit.dtype) = Except.error e →
      cmaesLoopE opt acq Xinit (fuel+1) s = Except.error e) ∧
    (∀ (fuel : ℕ) (s : σ) (e : ε) (xs : Batch) (s1 : σ) (A : Tensor2),
      opt.stop s = Except.ok false → opt.ask s = Except.ok (xs, s1) →
      acq ((fromNumpy2 xs).to Xinit.device Xinit.dtype) = Except.ok A →
      opt.tell s1 xs ((((negT2 A).view1).double).numpy) = Except.error e →
      cmaesLoopE opt acq Xinit (fuel+1) s = Except.error e) ∧
    (∀ (fuel : ℕ) (e : ε),
      cmaesLoopE opt acq Xinit fuel (opt.init (cmaesInit Xinit)) = Except.error e →
      optimizeWithCMAESE opt acq Xinit fuel = Except.error e) ∧
    (∀ (fuel : ℕ) (sf : σ) (e : ε),
      cmaesLoopE opt acq Xinit fuel (opt.init (cmaesInit Xinit)) = Except.ok sf →
      opt.bestX sf = Except.error e →
      optimizeWithCMAESE opt acq Xinit fuel = Except.error e) := by
  refine ⟨?_, ?_, ?_, ?_, ?_, ?_⟩
  · intro fuel s e h1
    rw [cmaesLoopE, h1]
  · intro fuel s e h1 h2
    rw [cmaesLoopE, h1, h2]
  · intro fuel s e xs s1 h1 h2 h3
    rw [cmaesLoopE, h1, h2]
    simp only
    rw [h3]
  · intro fuel s e xs s1 A h1 h2 h3 h4
    rw [cmaesLoopE, h1, h2]
    simp only
    rw [h3]
    simp only
    rw [h4]
  · intro fuel e h1
    rw [optimizeWithCMAESE, h1]
  · intro fuel sf e h1 h2
    rw [optimizeWithCMAESE, h1]
    simp only
    rw [h2]

/-- Witness for C6: a concrete run whose stopping call raises exception `7`,
which the loop returns unchanged. -/
theorem c6_witness :
    cmaesLoopE failStopOpt demoAcqE demoXinit 1 0 = Except.error 7 :=
  (c6_exceptions_propagate failStopOpt demoAcqE demoXinit).1 0 0 7 rfl

/-- C7: batched evaluation has no semantic effect: whenever the acquisition
function acts pointwise across its batch dimension (scoring each candidate
row by a scalar `f`), the batched pipeline score of every population equals
the sequential per-candidate scores, and each loop iteration reports exactly
those per-candidate scores. -/
theorem c7_batch_equals_sequential (acq : Tensor2 → Tensor2) (Xinit : Tensor1)
    (f : Vec → ℚ)
    (hpt : ∀ X : Tensor2, (acq X).data = X.data.map (fun v => [f v])) :
    (∀ xs : Batch, batchScores acq Xinit xs = perCandidateScores f xs) ∧
    (∀ (σ : Type) (opt : Optimizer σ) (s : σ),
      Event.tell ((opt.ask s).1) (perCandidateScores f ((opt.ask s).1)) ∈
        (cmaesStep opt acq Xinit s).2) := by
  have hb : ∀ xs : Batch, batchScores acq Xinit xs = perCandidateScores f xs := by
    intro xs
    rw [batchScores_eq_neg_flatten, hpt]
    show (((xs.map (fun v => [f v])).flatten).map (fun q => -q)) =
      perCandidateScores f xs
    rw [flatten_map_singleton, List.map_map]
    rfl
  refine ⟨hb, ?_⟩
  intro σ opt s
  rw [cmaesStep_events, ← hb ((opt.ask s).1)]
  simp

/-- Witness for C7: batched and sequential evaluation agree on a concrete
two-candidate population. -/
theorem c7_witness :
    batchScores demoAcq demoXinit [[1, 2], [3, 4]] =
      perCandidateScores demoScore [[1, 2], [3, 4]] :=
  (c7_batch_equals_sequential demoAcq demoXinit demoScore (fun _ => rfl)).1
    [[1, 2], [3, 4]]

/-- C8: the procedure mutates no state outside its own local variables: the
heap-instrumented run only appends fresh cells, so every pre-existing cell —
in particular the one holding `X_init`'s values — is unchanged at the end of
the run (and `X_init`'s device and dtype are fields of an immutable record the
run never rebinds); moreover each iteration's candidate batch, evaluation
tensors and score array are freshly allocated, and no allocation is carried
from one iteration to another (the per-iteration reference lists are pairwise
disjoint). -/
theorem c8_no_external_mutation {σ : Type} (opt : Optimizer σ)
    (acq : Tensor2 → Tensor2) (XinitR : TensorR) (fuel : ℕ) (h : Heap) (s : σ) :
    (∃ t, (cmaesLoopH opt acq XinitR fuel h s).1 = h ++ t) ∧
    (∀ r, r < h.length → ((cmaesLoopH opt acq XinitR fuel h s).1)[r]? = h[r]?) ∧
    (∀ rs ∈ (cmaesLoopH opt acq XinitR fuel h s).2.2, ∀ r ∈ rs, h.length ≤ r) ∧
    List.Pairwise (fun a b => ∀ x ∈ a, ∀ x2 ∈ b, x ≠ x2)
      (cmaesLoopH opt acq XinitR fuel h s).2.2 := by
  obtain ⟨⟨t, ht⟩, hb, hp⟩ := cmaesLoopH_spec opt acq XinitR fuel h s
  refine ⟨⟨t, ht⟩, ?_, ?_, hp⟩
  · intro r hr
    rw [ht]
    exact List.getElem?_append_left hr
  · intro rs hrs r hr
    exact (hb rs hrs r hr).1

/-- Witness for C8: in a concrete run whose initial heap holds `X_init`'s
values at reference 0, that cell is unchanged after the run. -/
theorem c8_witness :
    ((cmaesLoopH demoOpt demoAcq demoXinitR 1 [PyVal.arr1 [0, 0]] 0).1)[0]? =
      ([PyVal.arr1 [0, 0]] : Heap)[0]? :=
  (c8_no_external_mutation demoOpt demoAcq demoXinitR 1 [PyVal.arr1 [0, 0]] 0).2.1 0
    (by decide)

/-- C9: the optimizer is constructed with initial standard deviation `0.25`,
box bounds `[0, 1]` on every coordinate, and a fixed population size of 100;
consequently, if the external optimizer honours its configured bounds, every
candidate it proposes during the run lies in the unit cube. -/
theorem c9_constructor_options {σ : Type} (opt : Optimizer σ)
    (acq : Tensor2 → Tensor2) (Xinit : Tensor1) (fuel : ℕ)
    (hb : ∀ s : σ, ∀ v ∈ (opt.ask s).1, ∀ q ∈ v,
      (cmaesInit Xinit).inopts.boundsLo ≤ q ∧ q ≤ (cmaesInit Xinit).inopts.boundsHi) :
    (cmaesInit Xinit).sigma0 = 1/4 ∧
    (cmaesInit Xinit).inopts.boundsLo = 0 ∧
    (cmaesInit Xinit).inopts.boundsHi = 1 ∧
    (cmaesInit Xinit).inopts.popsize = 100 ∧
    (∀ xs, Event.ask xs ∈ (optimizeWithCMAES opt acq Xinit fuel).2 →
      ∀ v ∈ xs, ∀ q ∈ v, 0 ≤ q ∧ q ≤ 1) := by
  refine ⟨rfl, rfl, rfl, rfl, ?_⟩
  intro xs hmem v hv q hq
  obtain ⟨s2, _, hstep⟩ := mem_cmaesLoop_trace opt acq Xinit fuel _ _ hmem
  have hxs := ask_mem_step opt acq Xinit s2 xs hstep
  exact hb s2 v (hxs ▸ hv) q hq

/-- Witness for C9: the constructor arguments of a concrete run, with a
bounds-honouring optimizer. -/
theorem c9_witness :
    (cmaesInit demoXinit).sigma0 = 1/4 ∧ (cmaesInit demoXinit).inopts.popsize = 100 :=
  ⟨(c9_constructor_options demoOpt demoAcq demoXinit 1 (by
      intro s
      show ∀ v ∈ [[(0:ℚ), 0]], ∀ q ∈ v, (0:ℚ) ≤ q ∧ q ≤ (1:ℚ)
      decide)).1,
   (c9_constructor_options demoOpt demoAcq demoXinit 1 (by
      intro s
      show ∀ v ∈ [[(0:ℚ), 0]], ∀ q ∈ v, (0:ℚ) ≤ q ∧ q ≤ (1:ℚ)
      decide)).2.2.2.1⟩

/-- C10: before every evaluation, the candidate batch returned by ask is
converted to a tensor on `X_init`'s device with `X_init`'s dtype: in every
iteration of every run the acquisition function is invoked on a tensor
holding exactly the asked batch whose device and dtype match `X_init`,
regardless of the optimizer. -/
theorem c10_eval_on_Xinit_device_dtype {σ : Type} (opt : Optimizer σ)
    (acq : Tensor2 → Tensor2) (Xinit : Tensor1) (fuel : ℕ) :
    evalInputsMatch Xinit.device Xinit.dtype (optimizeWithCMAES opt acq Xinit fuel).2 =
      true :=
  evalInputsMatch_cmaesLoop opt acq Xinit fuel _

end CMAESTutorial
